import Mathlib

/-!
Verification of the wiki_api Flask application (src/assignment.py).

The development shallowly embeds the program:
* `pySplit` models Python `str.split()` (split on whitespace runs, drop empties),
* `firstOccs`/`counterItems` model `collections.Counter` built from the token
  list (an insertion-ordered map from each distinct token, in order of first
  appearance, to its occurrence count),
* `pyMostCommon` models `Counter.most_common(n)`: a stable sort by descending
  count followed by taking the first `n` items (CPython's `heapq.nlargest` /
  `sorted(..., reverse=True)` are stable, keeping insertion order on ties;
  `List.insertionSort` with the `countGe` relation is exactly such a stable
  descending sort),
* `analyze_word_frequency` models the function of the same name,
* `stripTags` models `BeautifulSoup(text, "html.parser").get_text()` on the
  fragments relevant here (text with tag regions removed),
* `pyInt` models `int(s)` on decimal strings (optional surrounding whitespace,
  optional sign, digits),
* `word_frequency_route` models the `/word_frequency` handler as a function of
  the request, the value `fetch_wikipedia_data(topic)` would return (the
  network environment), and the history store; uncaught Python exceptions are
  modelled by the `Resp.exn` outcome,
* `search_history_route` models the `/search_history` handler.

The history store is the list of `(topic, top_words)` rows in insertion order;
`save_search_history` appends one row.
-/

namespace WikiApi

/-- Whitespace characters recognised by Python `str.split()` / `str.strip()`
(ASCII fragment). -/
def isPySpace (c : Char) : Bool :=
  c = ' ' || c = '\t' || c = '\n' || c = '\r' || c = '\x0b' || c = '\x0c'

/-- Helper for `pySplit`: accumulate the current word (reversed) while
scanning. -/
def splitWsAux : List Char → List Char → List (List Char)
  | [], acc => if acc.isEmpty then [] else [acc.reverse]
  | c :: cs, acc =>
    if isPySpace c then
      if acc.isEmpty then splitWsAux cs [] else acc.reverse :: splitWsAux cs []
    else splitWsAux cs (c :: acc)

/-- Model of Python `str.split()` with no argument: split on runs of
whitespace, discarding empty strings. -/
def pySplit (s : String) : List String :=
  (splitWsAux s.data []).map String.mk

/-- The distinct elements of a list in order of first appearance: the key
order of a `collections.Counter` built by insertion. -/
def firstOccs : List String → List String
  | [] => []
  | w :: ws => w :: (firstOccs ws).filter (fun v => v != w)

/-- The `(token, count)` items of `Counter(ws)` in insertion order. -/
def counterItems (ws : List String) : List (String × Nat) :=
  (firstOccs ws).map (fun w => (w, ws.count w))

/-- The comparison used by `most_common`: `a` may come before `b` when `a`'s
count is at least `b`'s count (descending order). -/
def countGe (a b : String × Nat) : Prop := b.2 ≤ a.2

instance : DecidableRel countGe := fun a b => Nat.decLe b.2 a.2

instance : IsTotal (String × Nat) countGe := ⟨fun a b => Nat.le_total b.2 a.2⟩

instance : IsTrans (String × Nat) countGe := ⟨fun _ _ _ h1 h2 => Nat.le_trans h2 h1⟩

/-- Model of `Counter(ws).most_common(n)`: stable descending sort of the
counter items by count, then the first `n`. -/
def pyMostCommon (n : Nat) (ws : List String) : List (String × Nat) :=
  ((counterItems ws).insertionSort countGe).take n

/-- Model of `analyze_word_frequency(article_text, n)`:
`Counter(article_text.split()).most_common(n)`. -/
def analyze_word_frequency (article_text : String) (n : Nat) : List (String × Nat) :=
  pyMostCommon n (pySplit article_text)

/-- Helper for `stripTags`: the boolean is true while inside a `<...>` tag. -/
def stripTagsAux : List Char → Bool → List Char
  | [], _ => []
  | c :: cs, true => if c = '>' then stripTagsAux cs false else stripTagsAux cs true
  | c :: cs, false => if c = '<' then stripTagsAux cs true else c :: stripTagsAux cs false

/-- Model of `BeautifulSoup(s, "html.parser").get_text()`: drop the tag
regions, keep the text. -/
def stripTags (s : String) : String := String.mk (stripTagsAux s.data false)

/-- Strip leading and trailing Python whitespace. -/
def pyStrip (cs : List Char) : List Char :=
  ((cs.dropWhile isPySpace).reverse.dropWhile isPySpace).reverse

/-- Numeric value of a digit list (most significant first). -/
def digitsToNat (cs : List Char) : Nat :=
  cs.foldl (fun a c => a * 10 + (c.toNat - 48)) 0

/-- Parse a nonempty all-digit character list. -/
def pyIntDigits (cs : List Char) : Option Int :=
  if cs.isEmpty then none
  else if cs.all Char.isDigit then some (digitsToNat cs) else none

/-- Parse an optionally signed digit list. -/
def pyIntSigned : List Char → Option Int
  | '-' :: cs => (pyIntDigits cs).map (fun v => -v)
  | '+' :: cs => pyIntDigits cs
  | cs => pyIntDigits cs

/-- Model of Python `int(s)` on decimal strings: `none` when `int` raises
`ValueError`. -/
def pyInt (s : String) : Option Int := pyIntSigned (pyStrip s.data)

/-- Python truthiness of `request.args.get(...)`: `None` and the empty string
are falsy. -/
def pyFalsy : Option String → Bool
  | none => true
  | some s => s = ""

/-- One page object of the Wikipedia response: which of the `title` and
`extract` keys are present, and their values. -/
structure WikiPage where
  title : Option String
  extract : Option String
deriving DecidableEq

/-- The `query` object: the `pages` key (an insertion-ordered dict, modelled
as an association list) when present. -/
structure WikiQuery where
  pages : Option (List (String × WikiPage))
deriving DecidableEq

/-- The JSON value returned by `fetch_wikipedia_data` on success: the `query`
key when present. -/
structure WikiData where
  query : Option WikiQuery
deriving DecidableEq

/-- The history table: `(topic, top_words)` rows in insertion order. -/
abbrev Store := List (String × String)

/-- Outcome of the `/word_frequency` handler body: a JSON success response, a
JSON error response with an HTTP status, or an uncaught Python exception. -/
inductive Resp where
  | ok (wf : List (String × Nat))
  | err (status : Nat) (msg : String)
  | exn (name : String)
deriving DecidableEq

/-- Result of running the `/word_frequency` handler: the response, the history
store afterwards, and whether the upstream fetch was attempted. -/
structure HResult where
  resp : Resp
  store : Store
  fetched : Bool
deriving DecidableEq

/-- A `/word_frequency` request: the raw `topic` and `n` query parameters
(`none` when absent). -/
structure Request where
  topic : Option String
  n : Option String
deriving DecidableEq

/-- Serialisation used by `save_search_history`:
`", ".join(f"{word}: {count}" for word, count in result)`. -/
def serializeTopWords (wf : List (String × Nat)) : String :=
  String.intercalate ", " (wf.map (fun p => p.1 ++ ": " ++ toString p.2))

/-- Model of `save_search_history(topic, word_frequency_result)`: append one
row to the table. -/
def save_search_history (topic : String) (wf : List (String × Nat)) (store : Store) : Store :=
  store ++ [(topic, serializeTopWords wf)]

/-- Model of the `/word_frequency` handler. `env` is the value that
`fetch_wikipedia_data(topic)` returns (`none` when the fetch failed and the
exception was converted to `None`). Mirrors src/assignment.py line by line:
falsy-parameter check (400), `int` conversion and positivity check (400),
fetch, `query`/`pages` membership check (404), first page id, `title`
membership check (500), unguarded `extract` lookup (KeyError when absent),
HTML stripping, emptiness check (500), analysis, persistence, 200. The
`list(...keys())[0]` indexing raises IndexError on an empty dict. -/
def word_frequency_route (req : Request) (env : Option WikiData) (store : Store) : HResult :=
  if pyFalsy req.topic || pyFalsy req.n then
    ⟨.err 400 "Invalid input. Both topic and n are required.", store, false⟩
  else
    match pyInt (req.n.getD "") with
    | none => ⟨.err 400 "Invalid value for n.", store, false⟩
    | some nv =>
      if nv ≤ 0 then ⟨.err 400 "Invalid value for n.", store, false⟩
      else
        match env with
        | none => ⟨.err 404 "Invalid topic. Wikipedia article not found.", store, true⟩
        | some data =>
          match data.query with
          | none => ⟨.err 404 "Invalid topic. Wikipedia article not found.", store, true⟩
          | some q =>
            match q.pages with
            | none => ⟨.err 404 "Invalid topic. Wikipedia article not found.", store, true⟩
            | some pages =>
              match pages with
              | [] => ⟨.exn "IndexError", store, true⟩
              | (_, page) :: _ =>
                match page.title with
                | none =>
                  ⟨.err 500 "Failed to retrieve article details from Wikipedia.", store, true⟩
                | some _ =>
                  match page.extract with
                  | none => ⟨.exn "KeyError", store, true⟩
                  | some ext =>
                    if stripTags ext = "" then
                      ⟨.err 500 "Failed to retrieve clean article text from Wikipedia.",
                        store, true⟩
                    else
                      ⟨.ok (analyze_word_frequency (stripTags ext) nv.toNat),
                        save_search_history (req.topic.getD "")
                          (analyze_word_frequency (stripTags ext) nv.toNat) store,
                        true⟩

/-- One rendered `/search_history` item. -/
structure HistItem where
  topic : String
  top_words : String
deriving DecidableEq

/-- Model of the `/search_history` handler: HTTP status and rendered list,
plus the store afterwards (the handler only reads). -/
def search_history_route (store : Store) : (Nat × List HistItem) × Store :=
  ((200, store.map (fun e => ⟨e.1, e.2⟩)), store)

/-- The `pages` association list inside a fetch result, when the result is
well-formed. -/
def pagesOf : Option WikiData → Option (List (String × WikiPage))
  | none => none
  | some data =>
    match data.query with
    | none => none
    | some q => q.pages

/-- The page object the handler indexes: the first entry of `pages`. -/
def firstPageOf (env : Option WikiData) : Option WikiPage :=
  match pagesOf env with
  | some ((_, page) :: _) => some page
  | _ => none

/-- The `extract` field the handler reads, when every lookup on the way
succeeds. -/
def extractOf (env : Option WikiData) : Option String :=
  match firstPageOf env with
  | some page => page.extract
  | none => none

/-- The full specification of `analyze_word_frequency t n`: the result has
`min n (number of distinct tokens)` entries; counts are non-increasing; every
entry pairs a token of the text with its exact occurrence count; no token
appears twice; every token left out has a count at most that of every entry
kept; and entries with equal counts are ordered by the first appearance of
their tokens in the token stream. -/
def AnalyzeSpec (t : String) (n : Nat) : Prop :=
  (analyze_word_frequency t n).length = min n (firstOccs (pySplit t)).length ∧
  (analyze_word_frequency t n).Pairwise (fun a b => b.2 ≤ a.2) ∧
  (∀ p ∈ analyze_word_frequency t n, p.1 ∈ pySplit t ∧ p.2 = (pySplit t).count p.1) ∧
  ((analyze_word_frequency t n).map Prod.fst).Nodup ∧
  (∀ w ∈ pySplit t, w ∉ (analyze_word_frequency t n).map Prod.fst →
    ∀ p ∈ analyze_word_frequency t n, (pySplit t).count w ≤ p.2) ∧
  (analyze_word_frequency t n).Pairwise
    (fun a b => a.2 = b.2 → (pySplit t).indexOf a.1 < (pySplit t).indexOf b.1)

/-- Demo upstream response: one page with a title and the spec scenario
text. -/
def demoEnv : Option WikiData :=
  some ⟨some ⟨some [("1", ⟨some "Cat", some "the cat sat on the mat the cat ran"⟩)]⟩⟩

/-- Demo request: topic Cat, n = 2. -/
def demoReq : Request := ⟨some "Cat", some "2"⟩

/-- Upstream response whose extract is a single space, so the cleaned text is
non-empty but whitespace-only. -/
def wsEnv : Option WikiData := some ⟨some ⟨some [("1", ⟨some "Cat", some " "⟩)]⟩⟩

/-- Well-formed upstream response whose first page has a `title` key but no
`extract` key. -/
def noExtractEnv : Option WikiData := some ⟨some ⟨some [("1", ⟨some "Cat", none⟩)]⟩⟩

/-! ### Properties of `firstOccs` and `counterItems` -/

theorem mem_firstOccs {w : String} : ∀ {ws : List String}, w ∈ firstOccs ws ↔ w ∈ ws
  | [] => Iff.rfl
  | v :: vs => by
    simp only [firstOccs, List.mem_cons, List.mem_filter, bne_iff_ne, ne_eq]
    constructor
    · rintro (rfl | ⟨h, _⟩)
      · exact Or.inl rfl
      · exact Or.inr (mem_firstOccs.mp h)
    · rintro (rfl | h)
      · exact Or.inl rfl
      · by_cases hw : w = v
        · exact Or.inl hw
        · exact Or.inr ⟨mem_firstOccs.mpr h, hw⟩

theorem nodup_firstOccs : ∀ ws : List String, (firstOccs ws).Nodup
  | [] => List.nodup_nil
  | v :: vs => by
    simp only [firstOccs]
    refine List.Nodup.cons ?_ ((nodup_firstOccs vs).filter _)
    simp [List.mem_filter]

theorem pairwise_indexOf_firstOccs :
    ∀ ws : List String, (firstOccs ws).Pairwise (fun w v => ws.indexOf w < ws.indexOf v)
  | [] => List.Pairwise.nil
  | u :: us => by
    simp only [firstOccs]
    refine List.Pairwise.cons ?_ ?_
    · intro v hv
      have hvu : v ≠ u := by
        have := (List.mem_filter.mp hv).2
        simpa [bne_iff_ne] using this
      rw [List.indexOf_cons_self, List.indexOf_cons_ne _ (Ne.symm hvu)]
      exact Nat.succ_pos _
    · have base := (pairwise_indexOf_firstOccs us).filter (fun v => v != u)
      refine List.Pairwise.imp_of_mem ?_ base
      intro a b ha hb hab
      have hau : a ≠ u := by simpa [bne_iff_ne] using (List.mem_filter.mp ha).2
      have hbu : b ≠ u := by simpa [bne_iff_ne] using (List.mem_filter.mp hb).2
      rw [List.indexOf_cons_ne _ (Ne.symm hau), List.indexOf_cons_ne _ (Ne.symm hbu)]
      exact Nat.succ_lt_succ hab

theorem map_fst_counterItems (ws : List String) :
    (counterItems ws).map Prod.fst = firstOccs ws := by
  simp [counterItems, List.map_map, Function.comp_def]

theorem nodup_counterItems (ws : List String) : (counterItems ws).Nodup := by
  refine (nodup_firstOccs ws).map ?_
  intro a b hab
  simpa using congrArg Prod.fst hab

/-! ### Order lemmas used for the stability argument -/

theorem pair_sublist_of_mem {α : Type} {x y : α} (hxy : x ≠ y) :
    ∀ {l : List α}, x ∈ l → y ∈ l → [x, y].Sublist l ∨ [y, x].Sublist l
  | [], hx, _ => absurd hx (List.not_mem_nil x)
  | c :: cs, hx, hy => by
    by_cases hxc : x = c
    · subst hxc
      have hyc : y ∈ cs := by
        rcases List.mem_cons.mp hy with h | h
        · exact absurd h.symm hxy
        · exact h
      exact Or.inl (List.cons_sublist_cons.mpr (List.singleton_sublist.mpr hyc))
    · by_cases hyc : y = c
      · subst hyc
        have hxcs : x ∈ cs := by
          rcases List.mem_cons.mp hx with h | h
          · exact absurd h hxc
          · exact h
        exact Or.inr (List.cons_sublist_cons.mpr (List.singleton_sublist.mpr hxcs))
      · have hxcs : x ∈ cs := by
          rcases List.mem_cons.mp hx with h | h
          · exact absurd h hxc
          · exact h
        have hycs : y ∈ cs := by
          rcases List.mem_cons.mp hy with h | h
          · exact absurd h hyc
          · exact h
        rcases pair_sublist_of_mem hxy hxcs hycs with h | h
        · exact Or.inl (List.Sublist.cons c h)
        · exact Or.inr (List.Sublist.cons c h)

theorem sublist_pair_get {α : Type} {x y : α} :
    ∀ {l : List α}, [x, y].Sublist l →
      ∃ (i j : Nat) (hi : i < l.length) (hj : j < l.length),
        i < j ∧ l.get ⟨i, hi⟩ = x ∧ l.get ⟨j, hj⟩ = y := by
  intro l
  induction l with
  | nil => intro h; exact absurd h (by simp)
  | cons c cs ih =>
    intro h
    cases h with
    | cons _ h2 =>
      obtain ⟨i, j, hi, hj, hij, hx2, hy2⟩ := ih h2
      exact ⟨i + 1, j + 1, Nat.succ_lt_succ hi, Nat.succ_lt_succ hj,
        Nat.succ_lt_succ hij, hx2, hy2⟩
    | cons₂ _ h2 =>
      obtain ⟨jf, hjf⟩ := List.mem_iff_get.mp (List.singleton_sublist.mp h2)
      exact ⟨0, jf.1 + 1, Nat.succ_pos _, Nat.succ_lt_succ jf.isLt,
        Nat.succ_pos _, rfl, hjf⟩

/-- Stability of `most_common`: in the sorted counter items, two entries with
equal counts appear in first-occurrence order of their tokens. -/
theorem pairwise_tie_insertionSort (toks : List String) :
    ((counterItems toks).insertionSort countGe).Pairwise
      (fun a b => a.2 = b.2 → toks.indexOf a.1 < toks.indexOf b.1) := by
  have hperm : List.Perm ((counterItems toks).insertionSort countGe) (counterItems toks) :=
    List.perm_insertionSort countGe (counterItems toks)
  have hnd : ((counterItems toks).insertionSort countGe).Nodup :=
    hperm.nodup_iff.mpr (nodup_counterItems toks)
  have hinj := List.nodup_iff_injective_get.mp hnd
  have hpsS : (counterItems toks).Pairwise
      (fun a b => toks.indexOf a.1 < toks.indexOf b.1) := by
    unfold counterItems
    exact List.pairwise_map.mpr (pairwise_indexOf_firstOccs toks)
  rw [List.pairwise_iff_get]
  intro i j hij heq
  have hne : ((counterItems toks).insertionSort countGe).get i ≠
      ((counterItems toks).insertionSort countGe).get j := by
    intro h
    rw [hinj h] at hij
    exact absurd hij (lt_irrefl j)
  have ha : ((counterItems toks).insertionSort countGe).get i ∈ counterItems toks :=
    hperm.subset (List.mem_iff_get.mpr ⟨i, rfl⟩)
  have hb : ((counterItems toks).insertionSort countGe).get j ∈ counterItems toks :=
    hperm.subset (List.mem_iff_get.mpr ⟨j, rfl⟩)
  rcases pair_sublist_of_mem hne ha hb with hpair | hpair
  · have hp2 := List.Pairwise.sublist hpair hpsS
    exact (List.pairwise_cons.mp hp2).1 _ (List.mem_cons_self _ _)
  · have hge : countGe (((counterItems toks).insertionSort countGe).get j)
        (((counterItems toks).insertionSort countGe).get i) := Nat.le_of_eq heq
    have h2 := List.pair_sublist_insertionSort hge hpair
    obtain ⟨i2, j2, hi2, hj2, hlt, hbi, haj⟩ := sublist_pair_get h2
    have e1 : (⟨i2, hi2⟩ : Fin _) = j := hinj hbi
    have e2 : (⟨j2, hj2⟩ : Fin _) = i := hinj haj
    have hv1 : i2 = (j : Nat) := congrArg Fin.val e1
    have hv2 : j2 = (i : Nat) := congrArg Fin.val e2
    have hijn : (i : Nat) < (j : Nat) := hij
    omega

theorem length_analyze_word_frequency (t : String) (n : Nat) :
    (analyze_word_frequency t n).length = min n (firstOccs (pySplit t)).length := by
  simp [analyze_word_frequency, pyMostCommon, counterItems, List.length_take,
    List.length_insertionSort]

/-- C1: for every text and positive `n`, `analyze_word_frequency` returns the
`n` highest-count whitespace-delimited tokens sorted by descending count, and
tokens with equal counts keep the order of their first appearance in the token
stream. -/
theorem analyze_word_frequency_correct (t : String) (n : Nat) (_hn : 0 < n) :
    AnalyzeSpec t n := by
  refine ⟨length_analyze_word_frequency t n, ?_, ?_, ?_, ?_, ?_⟩
  · have hs := List.sorted_insertionSort countGe (counterItems (pySplit t))
    have h2 := List.Pairwise.sublist
      (List.take_sublist n ((counterItems (pySplit t)).insertionSort countGe)) hs
    exact h2.imp (fun h => h)
  · intro p hp
    have hp1 : p ∈ (counterItems (pySplit t)).insertionSort countGe :=
      (List.take_sublist n _).subset hp
    have hp2 : p ∈ counterItems (pySplit t) := (List.mem_insertionSort countGe).mp hp1
    obtain ⟨w, hw, rfl⟩ := List.mem_map.mp hp2
    exact ⟨mem_firstOccs.mp hw, rfl⟩
  · have h1 : List.Perm
        (((counterItems (pySplit t)).insertionSort countGe).map Prod.fst)
        ((counterItems (pySplit t)).map Prod.fst) :=
      (List.perm_insertionSort countGe (counterItems (pySplit t))).map Prod.fst
    have h2 : (((counterItems (pySplit t)).insertionSort countGe).map Prod.fst).Nodup := by
      refine h1.nodup_iff.mpr ?_
      rw [map_fst_counterItems]
      exact nodup_firstOccs (pySplit t)
    exact List.Nodup.sublist
      (List.Sublist.map Prod.fst (List.take_sublist n _)) h2
  · intro w hw hnotin p hp
    have hmem : (w, (pySplit t).count w) ∈ (counterItems (pySplit t)).insertionSort countGe :=
      (List.mem_insertionSort countGe).mpr
        (List.mem_map.mpr ⟨w, mem_firstOccs.mpr hw, rfl⟩)
    rw [← List.take_append_drop n ((counterItems (pySplit t)).insertionSort countGe)] at hmem
    rcases List.mem_append.mp hmem with hin | hin
    · exact absurd (List.mem_map_of_mem Prod.fst hin) hnotin
    · exact (List.sorted_insertionSort countGe
        (counterItems (pySplit t))).rel_of_mem_take_of_mem_drop hp hin
  · exact List.Pairwise.sublist (List.take_sublist n _) (pairwise_tie_insertionSort (pySplit t))

/-- Witness for C1: the spec scenario text with n = 3. -/
theorem analyze_word_frequency_correct_witness :
    0 < 3 ∧ AnalyzeSpec "the cat sat on the mat the cat ran" 3 :=
  ⟨by decide, analyze_word_frequency_correct "the cat sat on the mat the cat ran" 3 (by decide)⟩

/-- Everything that must have happened when the handler answered `200 ok`. -/
theorem route_ok_elim {req : Request} {env : Option WikiData} {store : Store}
    {wf : List (String × Nat)} {st : Store} {fe : Bool}
    (h : word_frequency_route req env store = ⟨Resp.ok wf, st, fe⟩) :
    ∃ (t : String) (nv : Int) (ext : String),
      req.topic = some t ∧ t ≠ "" ∧
      pyInt (req.n.getD "") = some nv ∧ 0 < nv ∧
      extractOf env = some ext ∧ stripTags ext ≠ "" ∧
      wf = analyze_word_frequency (stripTags ext) nv.toNat ∧
      st = store ++ [(t, serializeTopWords wf)] ∧ fe = true := by
  obtain ⟨otopic, onn⟩ := req
  by_cases hfal : (pyFalsy otopic || pyFalsy onn) = true
  · simp [word_frequency_route, hfal] at h
  have h1 : pyFalsy otopic = false := by simp_all
  have h2 : pyFalsy onn = false := by simp_all
  obtain ⟨t, rfl⟩ : ∃ t, otopic = some t := by
    rcases otopic with _ | t
    · simp [pyFalsy] at h1
    · exact ⟨t, rfl⟩
  have htne : t ≠ "" := by simpa [pyFalsy] using h1
  obtain ⟨s, rfl⟩ : ∃ s, onn = some s := by
    rcases onn with _ | s
    · simp [pyFalsy] at h2
    · exact ⟨s, rfl⟩
  rcases hpi : pyInt s with _ | nv
  · simp [word_frequency_route, h1, h2, hpi] at h
  by_cases hle : nv ≤ 0
  · simp [word_frequency_route, h1, h2, hpi, hle] at h
  rcases env with _ | ⟨oq⟩
  · simp [word_frequency_route, h1, h2, hpi, hle] at h
  rcases oq with _ | ⟨op⟩
  · simp [word_frequency_route, h1, h2, hpi, hle] at h
  rcases op with _ | pages
  · simp [word_frequency_route, h1, h2, hpi, hle] at h
  rcases pages with _ | ⟨⟨pid, page⟩, rest⟩
  · simp [word_frequency_route, h1, h2, hpi, hle] at h
  obtain ⟨otitle, oext⟩ := page
  rcases otitle with _ | title
  · simp [word_frequency_route, h1, h2, hpi, hle] at h
  rcases oext with _ | ext
  · simp [word_frequency_route, h1, h2, hpi, hle] at h
  by_cases hclean : stripTags ext = ""
  · simp [word_frequency_route, h1, h2, hpi, hle, hclean] at h
  simp [word_frequency_route, h1, h2, hpi, hle, hclean] at h
  obtain ⟨hwf, hst, hfe⟩ := h
  refine ⟨t, nv, ext, rfl, htne, hpi, by omega, ?_, hclean, hwf.symm, ?_, hfe⟩
  · simp [extractOf, firstPageOf, pagesOf]
  · rw [← hst, ← hwf]
    simp [save_search_history]

/-- On every run the store either gains exactly the one row recording a
successful analysis, or stays unchanged. -/
theorem route_store_cases (req : Request) (env : Option WikiData) (store : Store) :
    (∃ wf, (word_frequency_route req env store).resp = Resp.ok wf ∧
      (word_frequency_route req env store).store =
        store ++ [(req.topic.getD "", serializeTopWords wf)]) ∨
    ((∀ wf, (word_frequency_route req env store).resp ≠ Resp.ok wf) ∧
      (word_frequency_route req env store).store = store) := by
  unfold word_frequency_route
  repeat' split
  all_goals try (right; exact ⟨fun wf h => by simp at h, rfl⟩)
  left
  exact ⟨_, rfl, rfl⟩

/-- C2: when a request succeeds, the returned list has length
`min n (number of distinct tokens of the cleaned text)`; in particular the
length never exceeds `n`, and when fewer than `n` distinct tokens exist all of
them are returned. -/
theorem word_frequency_ok_length (req : Request) (env : Option WikiData) (store : Store)
    (wf : List (String × Nat)) (st : Store) (fe : Bool)
    (h : word_frequency_route req env store = ⟨Resp.ok wf, st, fe⟩) :
    ∃ (nv : Int) (ext : String), pyInt (req.n.getD "") = some nv ∧ 0 < nv ∧
      extractOf env = some ext ∧
      wf.length = min nv.toNat (firstOccs (pySplit (stripTags ext))).length ∧
      wf.length ≤ nv.toNat := by
  obtain ⟨t, nv, ext, _, _, hnv, hpos, hext, _, hwf, _, _⟩ := route_ok_elim h
  refine ⟨nv, ext, hnv, hpos, hext, ?_, ?_⟩
  · rw [hwf]
    exact length_analyze_word_frequency _ _
  · rw [hwf, length_analyze_word_frequency]
    exact Nat.min_le_left _ _

/-- Witness for C2 at a concrete successful request. -/
theorem word_frequency_ok_length_witness :
    ∃ (nv : Int) (ext : String), pyInt (demoReq.n.getD "") = some nv ∧ 0 < nv ∧
      extractOf demoEnv = some ext ∧
      ([(("the" : String), 3), ("cat", 2)] : List (String × Nat)).length =
        min nv.toNat (firstOccs (pySplit (stripTags ext))).length ∧
      ([(("the" : String), 3), ("cat", 2)] : List (String × Nat)).length ≤ nv.toNat :=
  word_frequency_ok_length demoReq demoEnv [] [("the", 3), ("cat", 2)]
    [("Cat", "the: 3, cat: 2")] true (by decide)

/-- C3: a history row is persisted exactly when the request fully succeeds;
every error path (400, 404, 500, uncaught exception) leaves the store
unchanged. -/
theorem word_frequency_persistence (req : Request) (env : Option WikiData) (store : Store) :
    (∀ wf, (word_frequency_route req env store).resp = Resp.ok wf →
      (word_frequency_route req env store).store =
        store ++ [(req.topic.getD "", serializeTopWords wf)] ∧
      (word_frequency_route req env store).store ≠ store) ∧
    ((∀ wf, (word_frequency_route req env store).resp ≠ Resp.ok wf) →
      (word_frequency_route req env store).store = store) := by
  rcases route_store_cases req env store with ⟨wf, hok, hst⟩ | ⟨hnok, hst⟩
  · constructor
    · intro wf2 hok2
      have hwe : wf = wf2 := Resp.ok.inj (hok.symm.trans hok2)
      subst hwe
      refine ⟨hst, ?_⟩
      rw [hst]
      intro he
      have hl := congrArg List.length he
      simp at hl
    · intro hnok
      exact absurd hok (hnok wf)
  · exact ⟨fun wf2 hok2 => absurd hok2 (hnok wf2), fun _ => hst⟩

/-- Witness for C3 at a concrete successful request. -/
theorem word_frequency_persistence_witness :
    (word_frequency_route demoReq demoEnv []).store =
      [] ++ [(demoReq.topic.getD "", serializeTopWords [("the", 3), ("cat", 2)])] ∧
    (word_frequency_route demoReq demoEnv []).store ≠ [] :=
  (word_frequency_persistence demoReq demoEnv []).1 [("the", 3), ("cat", 2)] (by decide)

/-- C4: with valid parameters, when the fetch result has no matching page
(fetch returned None, or the response lacks the query/pages keys), the handler
answers HTTP 404 with the error JSON and the store is unchanged. -/
theorem word_frequency_not_found (req : Request) (env : Option WikiData) (store : Store)
    (ht : pyFalsy req.topic = false) (hn : pyFalsy req.n = false)
    (nv : Int) (hnv : pyInt (req.n.getD "") = some nv) (hpos : 0 < nv)
    (henv : pagesOf env = none) :
    word_frequency_route req env store =
      ⟨Resp.err 404 "Invalid topic. Wikipedia article not found.", store, true⟩ := by
  have hle : ¬ nv ≤ 0 := by omega
  rcases env with _ | ⟨oq⟩
  · simp [word_frequency_route, ht, hn, hnv, hle]
  · rcases oq with _ | ⟨op⟩
    · simp [word_frequency_route, ht, hn, hnv, hle]
    · rcases op with _ | pages
      · simp [word_frequency_route, ht, hn, hnv, hle]
      · simp [pagesOf] at henv

/-- Witness for C4: a failed fetch with valid parameters. -/
theorem word_frequency_not_found_witness :
    word_frequency_route ⟨some "Cat", some "3"⟩ none [] =
      ⟨Resp.err 404 "Invalid topic. Wikipedia article not found.", [], true⟩ :=
  word_frequency_not_found ⟨some "Cat", some "3"⟩ none [] (by decide) (by decide) 3
    (by decide) (by decide) (by decide)

/-- C5: after a successful call, the history gains exactly one entry whose
topic is the request topic and whose top_words is the comma-separated
`word: count` serialisation of exactly the returned pairs, in order. -/
theorem word_frequency_roundtrip (req : Request) (env : Option WikiData) (store : Store)
    (wf : List (String × Nat)) (st : Store) (fe : Bool)
    (h : word_frequency_route req env store = ⟨Resp.ok wf, st, fe⟩) :
    ∃ t : String, req.topic = some t ∧
      st = store ++ [(t, serializeTopWords wf)] ∧
      ((search_history_route st).1).2 =
        ((search_history_route store).1).2 ++ [⟨t, serializeTopWords wf⟩] := by
  obtain ⟨t, nv, ext, htop, _, _, _, _, _, _, hst, _⟩ := route_ok_elim h
  refine ⟨t, htop, hst, ?_⟩
  rw [hst]
  simp [search_history_route, List.map_append]

/-- Witness for C5 at a concrete successful request. -/
theorem word_frequency_roundtrip_witness :
    ∃ t : String, demoReq.topic = some t ∧
      [("Cat", "the: 3, cat: 2")] =
        ([] : Store) ++ [(t, serializeTopWords [("the", 3), ("cat", 2)])] ∧
      ((search_history_route [("Cat", "the: 3, cat: 2")]).1).2 =
        ((search_history_route ([] : Store)).1).2 ++
          [⟨t, serializeTopWords [("the", 3), ("cat", 2)]⟩] :=
  word_frequency_roundtrip demoReq demoEnv [] [("the", 3), ("cat", 2)]
    [("Cat", "the: 3, cat: 2")] true (by decide)

/-- C6: a missing topic, a missing n, an unparsable n, or a non-positive n
each produce HTTP 400, with no fetch attempted and the store unchanged. -/
theorem word_frequency_validation (req : Request) (env : Option WikiData) (store : Store)
    (h : req.topic = none ∨ req.n = none ∨ pyInt (req.n.getD "") = none ∨
      ∃ v : Int, pyInt (req.n.getD "") = some v ∧ v ≤ 0) :
    ∃ msg : String, word_frequency_route req env store = ⟨Resp.err 400 msg, store, false⟩ := by
  by_cases hfal : (pyFalsy req.topic || pyFalsy req.n) = true
  · exact ⟨"Invalid input. Both topic and n are required.",
      by simp [word_frequency_route, hfal]⟩
  · have h1 : pyFalsy req.topic = false := by simp_all
    have h2 : pyFalsy req.n = false := by simp_all
    rcases h with h | h | h | ⟨v, hv, hvle⟩
    · rw [h] at h1
      simp [pyFalsy] at h1
    · rw [h] at h2
      simp [pyFalsy] at h2
    · exact ⟨"Invalid value for n.", by simp [word_frequency_route, h1, h2, h]⟩
    · exact ⟨"Invalid value for n.", by simp [word_frequency_route, h1, h2, hv, hvle]⟩

/-- Witness for C6: the topic parameter is missing. -/
theorem word_frequency_validation_witness :
    ∃ msg : String, word_frequency_route ⟨none, some "3"⟩ none [] =
      ⟨Resp.err 400 msg, [], false⟩ :=
  word_frequency_validation ⟨none, some "3"⟩ none [] (Or.inl rfl)

/-- C7: `/search_history` answers HTTP 200 and renders every stored row as
its topic and top_words, in insertion order. -/
theorem search_history_lists_all (store : Store) :
    ((search_history_route store).1).1 = 200 ∧
    ((search_history_route store).1).2.length = store.length ∧
    ∀ (i : Nat) (hi : i < store.length) (hb : i < ((search_history_route store).1).2.length),
      ((search_history_route store).1).2.get ⟨i, hb⟩ =
        ⟨(store.get ⟨i, hi⟩).1, (store.get ⟨i, hi⟩).2⟩ := by
  refine ⟨rfl, by simp [search_history_route], ?_⟩
  intro i hi hb
  simp [search_history_route]

/-- Witness for C7 at a one-row store. -/
theorem search_history_lists_all_witness :
    ((search_history_route [("a", "b: 1")]).1).2.get ⟨0, by decide⟩ =
      ⟨"a", "b: 1"⟩ :=
  (search_history_lists_all [("a", "b: 1")]).2.2 0 (by decide) (by decide)

/-- C8: reading `/search_history` leaves the store unchanged, so two
consecutive reads with no intervening writes return identical results. -/
theorem search_history_read_idempotent (store : Store) :
    (search_history_route store).2 = store ∧
    search_history_route ((search_history_route store).2) = search_history_route store :=
  ⟨rfl, rfl⟩

/-- C9: an extract that is a single space survives the emptiness check (the
cleaned text is non-empty), yields HTTP 200 with an empty frequency list, and
persists a row whose top_words is the empty string. -/
theorem whitespace_only_clean_text_ok :
    (stripTags " ").length = 1 ∧ pySplit (stripTags " ") = [] ∧
    word_frequency_route ⟨some "Cat", some "3"⟩ wsEnv [] =
      ⟨Resp.ok [], [("Cat", "")], true⟩ :=
  ⟨by decide, by decide, by decide⟩

/-- C10: a well-formed response whose first page has a title but no extract
key makes the handler raise an uncaught KeyError instead of answering any of
the specified 400/404/500 error responses. -/
theorem missing_extract_keyerror :
    word_frequency_route ⟨some "Cat", some "3"⟩ noExtractEnv [] =
      ⟨Resp.exn "KeyError", [], true⟩ := by decide

end WikiApi
